import Mathlib

/-!
Verification of the taproot signature codec in
src/bitcoin/src/crypto/taproot.rs.

A taproot Signature pairs an opaque 64-byte schnorr signature (parsed and
serialized by an external primitives collaborator, the k256 crate) with a
sighash hash-type tag (parsed by the sighash module of the repository, whose
source is not included). Bytes are modelled as natural numbers below 256; a
byte slice is a list of bytes. Fallible operations return Except, and the
one panic site in from_slice is modelled by an Option layer where none
stands for a panic.
-/

namespace Taproot

/-- Modelled from the spec: the external elliptic-curve primitives
collaborator (the k256 crate, absent from the sources). It parses and
serializes raw 64-byte schnorr signatures: valid says which byte strings
parse successfully, parseErr gives the collaborator specific error detail
reported on a failed parse. The contract valid_len records that only
64-byte inputs are ever accepted. -/
structure SchnorrCollab where
  valid : List Nat → Bool
  parseErr : List Nat → Nat
  valid_len : ∀ bs, valid bs = true → bs.length = 64

/-- A parsed raw schnorr signature of collaborator C: represented by its
canonical 64-byte serialization, as accepted by the collaborator. -/
def RawSig (C : SchnorrCollab) := { bs : List Nat // C.valid bs = true }

instance {C : SchnorrCollab} : DecidableEq (RawSig C) :=
  inferInstanceAs (DecidableEq { bs : List Nat // C.valid bs = true })

/-- The 64-byte serialization of a raw signature (k256 to_bytes). -/
def RawSig.to_bytes {C : SchnorrCollab} (s : RawSig C) : List Nat := s.val

/-- k256 try_from: parse a byte slice as a raw schnorr signature, reporting
the collaborator specific error detail on failure. -/
def RawSig.try_from (C : SchnorrCollab) (bs : List Nat) : Except Nat (RawSig C) :=
  if h : C.valid bs = true then .ok ⟨bs, h⟩ else .error (C.parseErr bs)

/-- Modelled from the spec: the sighash module collaborator
(crate::sighash, absent from the sources). A hash type is identified by
its numeric consensus code; validCode says which codes belong to the
enumeration and defaultCode is the code of the designated Default hash
type. The contract code_lt records that all codes fit in one byte. -/
structure SighashCollab where
  validCode : Nat → Bool
  defaultCode : Nat
  default_valid : validCode defaultCode = true
  code_lt : ∀ c, validCode c = true → c < 256

/-- A sighash hash type of collaborator S: a valid numeric consensus code. -/
def TapSighashType (S : SighashCollab) := { c : Nat // S.validCode c = true }

instance {S : SighashCollab} : DecidableEq (TapSighashType S) :=
  inferInstanceAs (DecidableEq { c : Nat // S.validCode c = true })

/-- The designated Default hash type (TapSighashType::Default). -/
def TapSighashType.Default (S : SighashCollab) : TapSighashType S :=
  ⟨S.defaultCode, S.default_valid⟩

/-- Modelled from the spec: the error returned by the sighash collaborator
when a numeric code is not in the enumeration; it carries the offending
code (crate::sighash::InvalidSighashTypeError). -/
structure InvalidSighashTypeError where
  code : Nat
deriving DecidableEq

/-- Modelled from the spec: TapSighashType::from_consensus_u8, parsing a
numeric code through the sighash collaborator. -/
def TapSighashType.from_consensus_u8 (S : SighashCollab) (c : Nat) :
    Except InvalidSighashTypeError (TapSighashType S) :=
  if h : S.validCode c = true then .ok ⟨c, h⟩ else .error ⟨c⟩

/-- Modelled from the spec: the crate level crypto error type; only the
InvalidSignature variant is referenced by this module. -/
inductive CryptoError where
  | InvalidSignature
deriving DecidableEq

/-- An error constructing a taproot Signature from a byte slice
(SigFromSliceError in the source). -/
inductive SigFromSliceError where
  | SighashType (e : InvalidSighashTypeError)
  | Secp256k1 (e : CryptoError)
  | InvalidSignatureSize (len : Nat)
deriving DecidableEq

/-- A BIP340-341 serialized taproot signature with its hash type, over the
two collaborators (struct Signature in the source). -/
structure Signature (C : SchnorrCollab) (S : SighashCollab) where
  signature : RawSig C
  sighash_type : TapSighashType S
deriving DecidableEq

/-- Modelled from the spec: the fixed-capacity serialized-signature buffer
(crate::taproot::serialized_signature::SerializedSignature, absent from the
sources): a 65-byte buffer together with an explicit logical length. -/
structure SerializedSignature where
  data : List Nat
  len : Nat
deriving DecidableEq

/-- SerializedSignature::from_raw_parts. -/
def SerializedSignature.from_raw_parts (buf : List Nat) (len : Nat) :
    SerializedSignature :=
  ⟨buf, len⟩

/-- Modelled from the spec: the read-only byte view of exactly len bytes
exposed by the buffer. -/
def SerializedSignature.bytes (s : SerializedSignature) : List Nat :=
  s.data.take s.len

/-- Rust slice split_last: the last element and the rest, or none on the
empty slice. -/
def splitLast? : List Nat → Option (Nat × List Nat)
  | [] => none
  | [a] => some (a, [])
  | a :: b :: rest =>
    match splitLast? (b :: rest) with
    | some (last, front) => some (last, a :: front)
    | none => none

/-- Signature::from_slice. The outer Option models the panic site: none
stands for the expect on split_last firing (which theorem c9 below shows
never happens). The 64 branch parses the whole slice as a raw signature
with the Default hash type; the 65 branch first parses the trailing byte
through the sighash collaborator, then the front 64 bytes through the
primitives collaborator; any other length is rejected with its size. -/
def Signature.from_slice (C : SchnorrCollab) (S : SighashCollab)
    (sl : List Nat) : Option (Except SigFromSliceError (Signature C S)) :=
  if sl.length = 64 then
    some (match RawSig.try_from C sl with
      | .ok signature => .ok ⟨signature, TapSighashType.Default S⟩
      | .error _ => .error (.Secp256k1 .InvalidSignature))
  else if sl.length = 65 then
    match splitLast? sl with
    | none => none
    | some (sighashByte, front) =>
      some (match TapSighashType.from_consensus_u8 S sighashByte with
        | .error e => .error (.SighashType e)
        | .ok sighash_type =>
          match RawSig.try_from C front with
          | .ok signature => .ok ⟨signature, sighash_type⟩
          | .error _ => .error (.Secp256k1 .InvalidSignature))
  else
    some (.error (.InvalidSignatureSize sl.length))

/-- Signature::to_vec: the heap-allocating serialization. Starts from the
64 raw signature bytes and appends the sighash code unless it is Default. -/
def Signature.to_vec {C : SchnorrCollab} {S : SighashCollab}
    (v : Signature C S) : List Nat :=
  v.signature.to_bytes ++
    (if v.sighash_type = TapSighashType.Default S then []
     else [v.sighash_type.val])

/-- Signature::serialize: the allocation-free serialization. The buffer is
65 bytes, zero before writing; the raw signature bytes (always 64 of them,
by the collaborator contract) fill positions 0..64, and position 64 either
keeps its zero (Default, logical length 64) or receives the sighash code
(logical length 65). -/
def Signature.serialize {C : SchnorrCollab} {S : SighashCollab}
    (v : Signature C S) : SerializedSignature :=
  let ser_sig := v.signature.to_bytes
  if v.sighash_type = TapSighashType.Default S then
    SerializedSignature.from_raw_parts (ser_sig ++ [0]) 64
  else
    SerializedSignature.from_raw_parts (ser_sig ++ [v.sighash_type.val]) 65

/-- Lexicographic comparison of byte slices, as Rust Ord on slices and
arrays of u8. -/
def lexCmp : List Nat → List Nat → Ordering
  | [], [] => .eq
  | [], _ :: _ => .lt
  | _ :: _, [] => .gt
  | x :: xs, y :: ys =>
    match compare x y with
    | .eq => lexCmp xs ys
    | o => o

/-- Ord::cmp for Signature: compares only the raw signature serializations
(self.signature.to_bytes), ignoring the sighash type. -/
def Signature.cmp {C : SchnorrCollab} {S : SighashCollab}
    (a b : Signature C S) : Ordering :=
  lexCmp a.signature.to_bytes b.signature.to_bytes

/-- Modelled from the spec: Hash for Signature feeds the serialized bytes
to the hasher, so the hash of a value is whatever the hasher H computes on
the logical bytes of serialize. -/
def Signature.hashWith {C : SchnorrCollab} {S : SighashCollab}
    (H : List Nat → Nat) (v : Signature C S) : Nat :=
  H v.serialize.bytes

/-! Concrete collaborator instances used by witnesses and counterexamples. -/

/-- Concrete primitives collaborator for witnesses: accepts exactly the
64-byte slices whose first byte is at most 1, and reports a fixed error
detail 42 on every failed parse. -/
def testSchnorr : SchnorrCollab where
  valid := fun bs => bs.length == 64 && decide (bs.headD 0 ≤ 1)
  parseErr := fun _ => 42
  valid_len := by
    intro bs h
    simp only [Bool.and_eq_true, beq_iff_eq, decide_eq_true_eq] at h
    exact h.1

/-- Concrete sighash collaborator for witnesses: the seven consensus codes
of BIP341, with Default coded 0. -/
def testSighash : SighashCollab where
  validCode := fun c =>
    c == 0 || c == 1 || c == 2 || c == 3 || c == 129 || c == 130 || c == 131
  defaultCode := 0
  default_valid := by decide
  code_lt := by
    intro c h
    simp only [Bool.or_eq_true, beq_iff_eq] at h
    rcases h with ((((((h | h) | h) | h) | h) | h) | h) <;> omega

/-- The all-zero 64-byte slice, a raw signature accepted by testSchnorr. -/
def zeroSig : RawSig testSchnorr :=
  ⟨List.replicate 64 0, by decide⟩

/-- The SIGHASH_ALL hash type (code 1) of the concrete collaborator. -/
def sighashAll : TapSighashType testSighash :=
  ⟨1, by decide⟩

/-- A concrete value tagged with the Default hash type. -/
def sigZeroDefault : Signature testSchnorr testSighash :=
  ⟨zeroSig, TapSighashType.Default testSighash⟩

/-- A concrete value with the same raw signature, tagged SIGHASH_ALL. -/
def sigZeroAll : Signature testSchnorr testSighash :=
  ⟨zeroSig, sighashAll⟩

/-! Helper lemmas shared by the claim theorems. -/

theorem Signature.ext_fields {C : SchnorrCollab} {S : SighashCollab}
    {a b : Signature C S} (h1 : a.signature = b.signature)
    (h2 : a.sighash_type = b.sighash_type) : a = b := by
  cases a
  cases b
  cases h1
  cases h2
  rfl

theorem RawSig.length_to_bytes {C : SchnorrCollab} (s : RawSig C) :
    s.to_bytes.length = 64 :=
  C.valid_len s.val s.property

theorem splitLast?_append (xs : List Nat) (c : Nat) :
    splitLast? (xs ++ [c]) = some (c, xs) := by
  induction xs with
  | nil => rfl
  | cons a xs ih =>
    rcases h : xs ++ [c] with _ | ⟨b, rest⟩
    · simp at h
    · have ih' := ih
      rw [h] at ih'
      simp only [List.cons_append, h, splitLast?, ih']

theorem Signature.serialize_bytes_default {C : SchnorrCollab}
    {S : SighashCollab} (v : Signature C S)
    (h : v.sighash_type = TapSighashType.Default S) :
    v.serialize.bytes = v.signature.to_bytes := by
  simp only [Signature.serialize, if_pos h, SerializedSignature.from_raw_parts,
    SerializedSignature.bytes]
  exact List.take_left' (RawSig.length_to_bytes v.signature)

theorem Signature.serialize_bytes_nondefault {C : SchnorrCollab}
    {S : SighashCollab} (v : Signature C S)
    (h : ¬ v.sighash_type = TapSighashType.Default S) :
    v.serialize.bytes = v.signature.to_bytes ++ [v.sighash_type.val] := by
  simp only [Signature.serialize, if_neg h, SerializedSignature.from_raw_parts,
    SerializedSignature.bytes]
  refine List.take_of_length_le ?_
  simp [RawSig.length_to_bytes v.signature]

theorem splitLast?_isSome (a : Nat) (xs : List Nat) :
    (splitLast? (a :: xs)).isSome = true := by
  induction xs generalizing a with
  | nil => rfl
  | cons b rest ih =>
    have h := ih b
    simp only [splitLast?]
    rcases hsp : splitLast? (b :: rest) with _ | ⟨last, front⟩
    · rw [hsp] at h
      simp at h
    · simp [hsp]

theorem from_slice_64 (C : SchnorrCollab) (S : SighashCollab) (sl : List Nat)
    (hlen : sl.length = 64) :
    Signature.from_slice C S sl =
      some (match RawSig.try_from C sl with
        | .ok signature => .ok ⟨signature, TapSighashType.Default S⟩
        | .error _ => .error (.Secp256k1 .InvalidSignature)) := by
  unfold Signature.from_slice
  rw [if_pos hlen]

theorem from_slice_65 (C : SchnorrCollab) (S : SighashCollab)
    (front : List Nat) (c : Nat) (hlen : front.length = 64) :
    Signature.from_slice C S (front ++ [c]) =
      some (match TapSighashType.from_consensus_u8 S c with
        | .error e => .error (.SighashType e)
        | .ok sighash_type =>
          match RawSig.try_from C front with
          | .ok signature => .ok ⟨signature, sighash_type⟩
          | .error _ => .error (.Secp256k1 .InvalidSignature)) := by
  have h65 : (front ++ [c]).length = 65 := by simp [hlen]
  unfold Signature.from_slice
  rw [if_neg (by omega), if_pos h65, splitLast?_append]

/-! Claim theorems. -/

/-- C4: on any slice whose length is neither 64 nor 65, from_slice fails
with InvalidSignatureSize carrying exactly that length. The result is the
same for every pair of collaborators, so neither the signature bytes nor a
sighash byte is ever parsed. -/
theorem c4_size_rejection (C : SchnorrCollab) (S : SighashCollab)
    (sl : List Nat) (h64 : sl.length ≠ 64) (h65 : sl.length ≠ 65) :
    Signature.from_slice C S sl =
      some (.error (.InvalidSignatureSize sl.length)) := by
  unfold Signature.from_slice
  rw [if_neg h64, if_neg h65]

/-- Witness for C4 at the concrete length-3 input. -/
theorem c4_size_rejection_witness :
    ([0, 0, 0] : List Nat).length ≠ 64 ∧
    ([0, 0, 0] : List Nat).length ≠ 65 ∧
    Signature.from_slice testSchnorr testSighash [0, 0, 0] =
      some (.error (.InvalidSignatureSize 3)) :=
  ⟨by decide, by decide,
    c4_size_rejection testSchnorr testSighash [0, 0, 0] (by decide) (by decide)⟩

/-- C9: from_slice is total: on every input it returns a value (success or
tagged error) rather than panicking. Panic is modelled by the none result,
reachable only if split_last failed on the 65-byte branch; the theorem
shows none is never returned. -/
theorem c9_from_slice_total (C : SchnorrCollab) (S : SighashCollab)
    (sl : List Nat) : (Signature.from_slice C S sl).isSome = true := by
  by_cases h64 : sl.length = 64
  · simp [Signature.from_slice, h64]
  · by_cases h65 : sl.length = 65
    · rcases sl with _ | ⟨a, xs⟩
      · simp at h65
      · have h := splitLast?_isSome a xs
        simp only [Signature.from_slice, if_neg h64, if_pos h65]
        rcases hsp : splitLast? (a :: xs) with _ | ⟨last, front⟩
        · rw [hsp] at h
          simp at h
        · simp [hsp]
    · simp [Signature.from_slice, h64, h65]

/-- C8: the heap-allocating to_vec returns exactly the logical bytes of the
allocation-free serialize, for every value. -/
theorem c8_to_vec_eq_serialize_bytes (C : SchnorrCollab) (S : SighashCollab)
    (v : Signature C S) : v.to_vec = v.serialize.bytes := by
  by_cases h : v.sighash_type = TapSighashType.Default S
  · rw [Signature.serialize_bytes_default v h]
    simp [Signature.to_vec, h]
  · rw [Signature.serialize_bytes_nondefault v h]
    simp [Signature.to_vec, h]

/-- C2: decode inverts encode: for every Signature value, from_slice on the
logical bytes of serialize succeeds and returns the same value, whatever
its sighash type. -/
theorem c2_decode_encode_roundtrip (C : SchnorrCollab) (S : SighashCollab)
    (v : Signature C S) :
    Signature.from_slice C S v.serialize.bytes = some (.ok v) := by
  obtain ⟨⟨bs, hb⟩, st⟩ := v
  have hlen : bs.length = 64 := C.valid_len bs hb
  by_cases h : st = TapSighashType.Default S
  · rw [Signature.serialize_bytes_default _ h]
    show Signature.from_slice C S bs = some (Except.ok ⟨⟨bs, hb⟩, st⟩)
    rw [from_slice_64 C S bs hlen]
    unfold RawSig.try_from
    rw [dif_pos hb, h]
  · rw [Signature.serialize_bytes_nondefault _ h]
    show Signature.from_slice C S (bs ++ [st.val]) =
      some (Except.ok ⟨⟨bs, hb⟩, st⟩)
    rw [from_slice_65 C S bs st.val hlen]
    unfold TapSighashType.from_consensus_u8
    rw [dif_pos st.property]
    unfold RawSig.try_from
    rw [dif_pos hb]
    rfl

/-- C5: on a 65-byte slice the trailing discriminant is validated first: an
invalid code yields SighashType wrapping the collaborator error, and this
holds for every primitives collaborator, so the 64 signature bytes are
never parsed; a valid code with rejected signature bytes yields Secp256k1;
both accepted yields the value carrying that raw signature and hash type. -/
theorem c5_65_byte_order (C : SchnorrCollab) (S : SighashCollab)
    (front : List Nat) (c : Nat) (hlen : front.length = 64) :
    (S.validCode c = false →
      Signature.from_slice C S (front ++ [c]) =
        some (.error (.SighashType ⟨c⟩))) ∧
    (∀ (hc : S.validCode c = true), C.valid front = false →
      Signature.from_slice C S (front ++ [c]) =
        some (.error (.Secp256k1 .InvalidSignature))) ∧
    (∀ (hc : S.validCode c = true) (hv : C.valid front = true),
      Signature.from_slice C S (front ++ [c]) =
        some (.ok ⟨⟨front, hv⟩, ⟨c, hc⟩⟩)) := by
  rw [from_slice_65 C S front c hlen]
  refine ⟨?_, ?_, ?_⟩
  · intro hbad
    unfold TapSighashType.from_consensus_u8
    rw [dif_neg (by simp [hbad])]
  · intro hc hv
    unfold TapSighashType.from_consensus_u8
    rw [dif_pos hc]
    unfold RawSig.try_from
    rw [dif_neg (by simp [hv])]
  · intro hc hv
    unfold TapSighashType.from_consensus_u8
    rw [dif_pos hc]
    unfold RawSig.try_from
    rw [dif_pos hv]

/-- Witness for C5: an unrecognized trailing code 7 after 64 rejected bytes
still reports the sighash failure, carrying the code. -/
theorem c5_65_byte_order_witness :
    (List.replicate 64 2).length = 64 ∧
    testSighash.validCode 7 = false ∧
    Signature.from_slice testSchnorr testSighash (List.replicate 64 2 ++ [7]) =
      some (.error (.SighashType ⟨7⟩)) :=
  ⟨by decide, by decide,
    (c5_65_byte_order testSchnorr testSighash (List.replicate 64 2) 7
      (by decide)).1 (by decide)⟩

/-- C7: decoding is lenient but encoding canonicalizes: a 65-byte input
whose front 64 bytes are accepted and whose trailing byte is the Default
code decodes successfully, and serialize of the result has logical length
64, never the redundant 65-byte form. -/
theorem c7_lenient_decode_canonical_encode (C : SchnorrCollab)
    (S : SighashCollab) (front : List Nat) (hlen : front.length = 64)
    (hv : C.valid front = true) :
    Signature.from_slice C S (front ++ [S.defaultCode]) =
      some (.ok ⟨⟨front, hv⟩, TapSighashType.Default S⟩) ∧
    (Signature.serialize ⟨⟨front, hv⟩, TapSighashType.Default S⟩).len = 64 := by
  constructor
  · rw [from_slice_65 C S front S.defaultCode hlen]
    unfold TapSighashType.from_consensus_u8
    rw [dif_pos S.default_valid]
    unfold RawSig.try_from
    rw [dif_pos hv]
    rfl
  · simp [Signature.serialize, SerializedSignature.from_raw_parts]

/-- Witness for C7 at the all-zero accepted signature and explicit Default
code 0. -/
theorem c7_lenient_decode_canonical_encode_witness :
    (List.replicate 64 0).length = 64 ∧
    testSchnorr.valid (List.replicate 64 0) = true ∧
    (Signature.from_slice testSchnorr testSighash
        (List.replicate 64 0 ++ [testSighash.defaultCode]) =
      some (.ok ⟨zeroSig, TapSighashType.Default testSighash⟩) ∧
    (Signature.serialize
        ⟨zeroSig, TapSighashType.Default testSighash⟩).len = 64) :=
  ⟨by decide, by decide,
    c7_lenient_decode_canonical_encode testSchnorr testSighash
      (List.replicate 64 0) (by decide) (by decide)⟩

/-- C10: whenever from_slice fails because the 64 signature bytes are
rejected by the primitives collaborator, the returned error is exactly
Secp256k1 InvalidSignature, on both the 64-byte and the 65-byte paths.
The statement holds for every collaborator, whatever error detail its
parseErr reports, so the collaborator detail is discarded, not chained. -/
theorem c10_crypto_error_fixed (C : SchnorrCollab) (S : SighashCollab) :
    (∀ sl : List Nat, sl.length = 64 → C.valid sl = false →
      Signature.from_slice C S sl =
        some (.error (.Secp256k1 .InvalidSignature))) ∧
    (∀ (front : List Nat) (c : Nat), front.length = 64 →
      S.validCode c = true → C.valid front = false →
      Signature.from_slice C S (front ++ [c]) =
        some (.error (.Secp256k1 .InvalidSignature))) := by
  constructor
  · intro sl hlen hv
    rw [from_slice_64 C S sl hlen]
    unfold RawSig.try_from
    rw [dif_neg (by simp [hv])]
  · intro front c hlen hc hv
    rw [from_slice_65 C S front c hlen]
    unfold TapSighashType.from_consensus_u8
    rw [dif_pos hc]
    unfold RawSig.try_from
    rw [dif_neg (by simp [hv])]

/-- Witness for C10: 64 bytes of value 2 are rejected by testSchnorr (its
parseErr detail is 42), yet the error is the fixed InvalidSignature. -/
theorem c10_crypto_error_fixed_witness :
    (List.replicate 64 2).length = 64 ∧
    testSchnorr.valid (List.replicate 64 2) = false ∧
    Signature.from_slice testSchnorr testSighash (List.replicate 64 2) =
      some (.error (.Secp256k1 .InvalidSignature)) :=
  ⟨by decide, by decide,
    (c10_crypto_error_fixed testSchnorr testSighash).1
      (List.replicate 64 2) (by decide) (by decide)⟩

/-- C6: serialize has logical length 64 exactly when the hash type is
Default and 65 otherwise; the first 64 buffer bytes are always the raw
signature serialization, and in the non-Default case the byte at index 64
is the numeric sighash code. -/
theorem c6_serialize_shape (C : SchnorrCollab) (S : SighashCollab)
    (v : Signature C S) :
    v.serialize.len =
      (if v.sighash_type = TapSighashType.Default S then 64 else 65) ∧
    v.serialize.data.take 64 = v.signature.to_bytes ∧
    (v.sighash_type ≠ TapSighashType.Default S →
      v.serialize.data.getD 64 0 = v.sighash_type.val) := by
  have hlen := RawSig.length_to_bytes v.signature
  by_cases h : v.sighash_type = TapSighashType.Default S
  · refine ⟨?_, ?_, fun hne => absurd h hne⟩
    · simp [Signature.serialize, h, SerializedSignature.from_raw_parts]
    · simp only [Signature.serialize, if_pos h,
        SerializedSignature.from_raw_parts]
      exact List.take_left' hlen
  · refine ⟨?_, ?_, fun _ => ?_⟩
    · simp [Signature.serialize, h, SerializedSignature.from_raw_parts]
    · simp only [Signature.serialize, if_neg h,
        SerializedSignature.from_raw_parts]
      exact List.take_left' hlen
    · simp only [Signature.serialize, if_neg h,
        SerializedSignature.from_raw_parts]
      rw [List.getD_append_right _ _ _ _ (by omega), hlen]
      simp

/-- Witness for C6: a non-Default value has buffer length 65 and carries
its code 1 at index 64. -/
theorem c6_serialize_shape_witness :
    sigZeroAll.sighash_type ≠ TapSighashType.Default testSighash ∧
    sigZeroAll.serialize.data.getD 64 0 = 1 :=
  ⟨by decide,
    (c6_serialize_shape testSchnorr testSighash sigZeroAll).2.2 (by decide)⟩

/-- C3: equality coincides with equality of the canonical encodings (the
logical serialize bytes), and equal values hash alike under every hasher. -/
theorem c3_eq_iff_encoding (C : SchnorrCollab) (S : SighashCollab)
    (H : List Nat → Nat) (a b : Signature C S) :
    (a = b ↔ a.serialize.bytes = b.serialize.bytes) ∧
    (a = b → Signature.hashWith H a = Signature.hashWith H b) := by
  refine ⟨⟨fun h => by rw [h], fun h => ?_⟩, fun h => by rw [h]⟩
  by_cases ha : a.sighash_type = TapSighashType.Default S <;>
    by_cases hb : b.sighash_type = TapSighashType.Default S
  · rw [Signature.serialize_bytes_default a ha,
      Signature.serialize_bytes_default b hb] at h
    exact Signature.ext_fields (Subtype.ext h) (ha.trans hb.symm)
  · exfalso
    have hl := congrArg List.length h
    rw [Signature.serialize_bytes_default a ha,
      Signature.serialize_bytes_nondefault b hb] at hl
    simp [RawSig.length_to_bytes] at hl
  · exfalso
    have hl := congrArg List.length h
    rw [Signature.serialize_bytes_nondefault a ha,
      Signature.serialize_bytes_default b hb] at hl
    simp [RawSig.length_to_bytes] at hl
  · rw [Signature.serialize_bytes_nondefault a ha,
      Signature.serialize_bytes_nondefault b hb] at h
    obtain ⟨h1, h2⟩ := List.append_inj' h rfl
    have hc : a.sighash_type.val = b.sighash_type.val := by
      injection h2
    exact Signature.ext_fields (Subtype.ext h1) (Subtype.ext hc)

/-- C1: the claim that Ord::cmp equals the byte-lexicographic comparison of
the canonical encodings fails on the code, which compares only the raw
signature bytes: at two values sharing raw bytes but with hash types
Default and All, cmp returns eq while the encodings compare lt (the
64-byte form is a proper initial segment of the 65-byte form) and the
values are unequal. -/
theorem c1_cmp_ignores_sighash :
    Signature.cmp sigZeroDefault sigZeroAll = .eq ∧
    lexCmp sigZeroDefault.serialize.bytes sigZeroAll.serialize.bytes = .lt ∧
    sigZeroDefault ≠ sigZeroAll :=
  ⟨by decide, by decide, by decide⟩

end Taproot
